import Mathlib

/-!
Verification of the moth request-execution pipeline and WASM host boundary.

This file shallowly embeds the route-resolution walker, the upload dispatch
loop, the deployer state machine, the server-config loader and the per-instance
WASM handle state machine of the moth web-application host, and proves the
specified properties about them.
-/

namespace Moth

/-- Route endpoints, mirroring `Endpoint` in `lib/lib.rs`.  `Dir` inlines the
fields of `EndpointMap` (`default`, `wildcard`, `items`); the string-intern
pool is dropped (interned strings are plain strings) and `items` is an
association list standing for the hash map. -/
inductive Endpoint where
  | ScriptExec (readOnly : Bool) (name : String)
  | Static (path : String)
  | Dir (dflt : Option Endpoint) (wildcard : Option Endpoint)
        (items : List (String × Endpoint))
  | Upload
  | Error (code : Nat)

/-- Association-list lookup, standing for `HashMap::get` / `LiteMap::get`. -/
def lookupA {α : Type} : List (String × α) → String → Option α
  | [], _ => none
  | (k, v) :: rest, key => if k = key then some v else lookupA rest key

/-- One pass of the segment loop of `request_waiter` (`lib/request.rs:30-63`).
Each loop iteration consumes exactly one segment: the `Dir`-with-`Static`
`default` case falls through to the `Static` branch within the same iteration
without consuming the segment, which the fused `Dir` arm below reproduces.
Returns the endpoint at loop exit together with `path_vars` and
`path_override`. -/
def routeWalk (on404 : Endpoint) :
    Endpoint → List String → List String → Option String →
    Endpoint × List String × Option String
  | e, [], vars, ov => (e, vars, ov)
  | .Upload, s :: rest, vars, ov =>
      routeWalk on404 .Upload rest (vars ++ [s]) ov
  | .Dir d w items, s :: rest, vars, ov =>
      match lookupA items s with
      | some next => routeWalk on404 next rest vars ov
      | none =>
        match d with
        | some (.Static p) =>
            routeWalk on404 (.Static p) rest vars (some ((ov.getD p) ++ "/" ++ s))
        | _ =>
          match w with
          | some next => routeWalk on404 next rest (vars ++ [s]) ov
          | none => (on404, vars, ov)
  | .Static p, s :: rest, vars, ov =>
      routeWalk on404 (.Static p) rest vars (some ((ov.getD p) ++ "/" ++ s))
  | _, _ :: _, vars, ov => (on404, vars, ov)

/-- The trailing `while let Endpoint::Dir` loop of `request_waiter`
(`lib/request.rs:65-73`): follow `default` children until a non-`Dir` endpoint
is reached; a `Dir` without `default` falls back to the 404 endpoint. -/
def resolveTrailing (on404 : Endpoint) : Endpoint → Endpoint
  | .Dir (some d) _ _ => resolveTrailing on404 d
  | .Dir none _ _ => on404
  | e => e

/-- Full route resolution: the segment loop followed by the trailing-`Dir`
resolution, as in `request_waiter`. -/
def resolveRoute (routes on404 : Endpoint) (path : List String) :
    Endpoint × List String × Option String :=
  match routeWalk on404 routes path [] none with
  | (e, vars, ov) => (resolveTrailing on404 e, vars, ov)

/-- Splitting a character list on `/`, accumulating the current segment in
reverse. -/
def splitSlash : List Char → List Char → List String
  | [], acc => [String.mk acc.reverse]
  | c :: rest, acc =>
      if c = '/' then String.mk acc.reverse :: splitSlash rest []
      else splitSlash rest (c :: acc)

/-- Path splitting as in `request_waiter` (`lib/request.rs:29`): split the URL
on `/` and drop empty segments. -/
def splitPath (url : String) : List String :=
  (splitSlash url.toList []).filter (fun s => s ≠ "")

/-! ## Upload dispatch loop

The `Endpoint::Upload` arm of `process_endpoint` (`lib/request.rs:134-173`)
reads the request body in chunks and forwards each chunk to
`site.upload_progress`.  The reads performed by `reader.read(&mut buf)` are
modelled as a list of results: `some chunk` for `Ok(len)` with `chunk` the
bytes read (a zero-length read is `some []`, which is what a reader returns at
end-of-input), `none` for `Err(_)`. -/

/-- Outcome of the upload loop: which `end_of_upload` flag was used, paired
with the HTTP status of the response written afterwards (200 `"success"` or
the 400 failure page). -/
inductive UploadOutcome where
  | closed200
  | closed400
deriving DecidableEq

/-- The `while body_len > 0` loop of the `Upload` arm of `process_endpoint`.
`bodyLen` is the remaining expected byte count (initially the value returned
by `check_upload_token`), `acc` is the concatenation of all byte slices passed
to `upload_progress` so far.  Returns `none` when the modelled read sequence
is exhausted while the loop would keep running (the loop itself has no exit
for that case: a real reader always returns another result). -/
def uploadLoop : Nat → List (Option (List Nat)) → List Nat →
    Option (UploadOutcome × List Nat)
  | 0, _, acc => some (.closed200, acc)
  | _ + 1, [], _ => none
  | _ + 1, none :: _, acc => some (.closed400, acc)
  | n + 1, some chunk :: rest, acc =>
      if chunk.length ≤ n + 1 then
        uploadLoop (n + 1 - chunk.length) rest (acc ++ chunk)
      else
        some (.closed400, acc ++ chunk)

/-- Sum of chunk lengths. -/
def chunksLen (chunks : List (List Nat)) : Nat :=
  chunks.foldr (fun c a => c.length + a) 0

/-! ## Deployer -/

/-- Hex-digit value of one byte of the submitted key string, as encoded by the
`HEX_TO_WORD` table in `moth-wasm/deploy.rs` (255 marks a non-hex digit). -/
def hexToWord (c : Char) : Nat :=
  let n := c.toNat
  if 48 ≤ n ∧ n ≤ 57 then n - 48
  else if 65 ≤ n ∧ n ≤ 70 then n - 55
  else if 97 ≤ n ∧ n ≤ 102 then n - 87
  else 255

/-- Pairwise hex decoding, as in the loop of `decode_hex`. -/
def decodeHexPairs : List Char → Option (List Nat)
  | [] => some []
  | hi :: lo :: rest =>
      let hw := hexToWord hi
      let lw := hexToWord lo
      if hw = 255 ∨ lw = 255 then none
      else (decodeHexPairs rest).map (fun tail => (hw * 16 + lw) :: tail)
  | _ :: [] => none

/-- `decode_hex::<32>` from `moth-wasm/deploy.rs:187-206`: a 64-hex-digit
string decodes to 32 bytes; anything else is rejected. -/
def decodeHex32 (hex : String) : Option (List Nat) :=
  if hex.length = 64 then decodeHexPairs hex.toList else none

/-- A pending upload session: the accumulated bytes, the reserved capacity of
the `Vec` (what `check_upload_token` reports) and the target hostname. -/
structure UploadEntry where
  buf : List Nat
  cap : Nat
  host : String
deriving DecidableEq

/-- Mutable state of the `Deployer` (`moth-wasm/deploy.rs`): pending upload
sessions keyed by token, the hostname-ownership map `admins`, the hostnames
registered in the shared `SiteRegistry`, and the configured size limit. -/
structure DeployerState where
  pending : List (String × UploadEntry)
  admins : List (String × List Nat)
  sitesReg : List String
  maxSize : Nat
deriving DecidableEq

/-- Association-list insert-or-replace, standing for map `insert`. -/
def insertA {α : Type} : List (String × α) → String → α → List (String × α)
  | [], key, v => [(key, v)]
  | (k, w) :: rest, key, v =>
      if k = key then (k, v) :: rest else (k, w) :: insertA rest key v

/-- Association-list removal, standing for map `remove`. -/
def removeA {α : Type} : List (String × α) → String → List (String × α)
  | [], _ => []
  | (k, w) :: rest, key =>
      if k = key then rest else (k, w) :: removeA rest key

/-- `Deployer::check_upload_token` (`deploy.rs:70-78`): report the capacity of
the pending buffer for a known token, `None` for an unknown one. -/
def checkUploadToken (st : DeployerState) (token : String) : Option Nat :=
  (lookupA st.pending token).map (fun e => e.cap)

/-- `Deployer::upload_progress` (`deploy.rs:80-85`): append the chunk to the
pending buffer.  The unwrap on an unknown token is modelled as `none`.
`Vec::extend_from_slice` grows the capacity when the data outgrows it; the
exact grown capacity is unspecified, so the model records the guaranteed lower
bound. -/
def uploadProgress (st : DeployerState) (token : String) (chunk : List Nat) :
    Option DeployerState :=
  match lookupA st.pending token with
  | none => none
  | some e =>
      let e' := { e with buf := e.buf ++ chunk,
                         cap := max e.cap (e.buf.length + chunk.length) }
      some { st with pending := insertA st.pending token e' }

/-- `Deployer::end_of_upload` (`deploy.rs:87-104`).  On success the entry is
removed, `WasmApp::new` runs over the accumulated bytes (modelled by the
abstract constructor `build`, `none` for a failed construction) and a
successfully built site is inserted into the registry.  On failure the buffer
is cleared but the entry is kept.  The unwrap on an unknown token is modelled
as `none`. -/
def endOfUpload (build : List Nat → String → Option String)
    (st : DeployerState) (token : String) (success : Bool) :
    Option DeployerState :=
  match lookupA st.pending token with
  | none => none
  | some e =>
      if success then
        let st' := { st with pending := removeA st.pending token }
        match build e.buf e.host with
        | some host => some { st' with sitesReg := host :: st'.sitesReg }
        | none => some st'
      else
        let e' := { e with buf := ([] : List Nat) }
        some { st with pending := insertA st.pending token e' }

/-- The `size_bytes.parse::<usize>()` step of `Deployer::process_script`: a
non-empty all-digit string parses to its decimal value, anything else is
rejected. -/
def parseUsize (s : String) : Option Nat :=
  if s.toList ≠ [] ∧ s.toList.all Char.isDigit then
    some (s.toList.foldl (fun a c => a * 10 + (c.toNat - 48)) 0)
  else none

/-- The three string properties that `Deployer::process_script` extracts from
the JSON request body via `get_str`: each field is `some s` when the property
is present and is a JSON string, `none` otherwise. -/
structure ReqBody where
  site : Option String
  key : Option String
  size_bytes : Option String

/-- Result of a `/request` call. `err` rejects the request, carrying the
deployer state as it is at that point; `ok` carries the fresh token and the
updated state; `exhausted` models running out of the supplied pool of random
token draws, which the retry loop in the code never does. -/
inductive ProcOutcome where
  | err (st : DeployerState)
  | ok (token : String) (st : DeployerState)
  | exhausted (st : DeployerState)

/-- The token-generation retry loop at the end of `Deployer::process_script`
(`deploy.rs:133-143`): draw random tokens until one is not already pending,
then reserve a buffer of capacity `size` for it under the target hostname. -/
def reserveToken (st : DeployerState) (site : String) (size : Nat) :
    List String → ProcOutcome
  | [] => .exhausted st
  | t :: rest =>
      if (lookupA st.pending t).isSome then reserveToken st site size rest
      else .ok t { st with pending := insertA st.pending t ⟨[], size, site⟩ }

/-- `Deployer::process_script` (`deploy.rs:106-152`): extract `site`, `key`
(hex-decoded) and `size_bytes` from the body, enforce the size limit, check or
establish hostname ownership in `admins`, and reserve a pending upload keyed
by a fresh random token.  `tokens` is the stream of random draws consumed by
the retry loop. -/
def deployerProcessScript (st : DeployerState) (body : ReqBody)
    (tokens : List String) : ProcOutcome :=
  match body.site with
  | none => .err st
  | some site =>
    match body.key.bind decodeHex32 with
    | none => .err st
    | some submittedKey =>
      match body.size_bytes.bind parseUsize with
      | none => .err st
      | some size =>
        if st.maxSize < size then .err st
        else
          match lookupA st.admins site with
          | some k =>
              if k ≠ submittedKey then .err st
              else reserveToken st site size tokens
          | none =>
              reserveToken { st with admins := insertA st.admins site submittedKey }
                site size tokens

/-! ## Server configuration loading -/

/-- The numeric thread-count properties of the server `config.json`. -/
structure ConfigFile where
  request_threads : Nat
  script_threads : Nat
  render_threads : Nat
deriving DecidableEq

/-- The three thread counts handed to `Sites::new` by `main`
(`moth-wasm/main.rs:300-306`).  The middle binding mirrors
`let script_threads = get_num("request_threads");` — the loader reads the
scripter count from the `request_threads` property. -/
def loadThreadCounts (c : ConfigFile) : Nat × Nat × Nat :=
  (c.request_threads, c.request_threads, c.render_threads)

/-- The `tid`s of the scripter threads spawned by `serve`
(`lib/lib.rs:119-124`): one `script_runner` per unit of the `script_threads`
count, offset by the receiver count. -/
def spawnedScripterTids (counts : Nat × Nat × Nat) : List Nat :=
  (List.range counts.2.1).map (fun i => counts.1 + i)

/-! ## WASM host boundary: Handle state machine and guest invocations

The wasmi store, guest linear memory and typed guest exports are abstracted
away: strings and byte vectors cross the boundary directly, and the opaque
JSON handles produced by `__parse_json` are plain numbers whose values the
model does not track.  What is modelled faithfully is the `Handle` state
consulted by every host import and the control flow of
`WasmThread::call_script_fn`. -/

/-- `RepositoryHandle` from `moth-wasm/handle.rs`: the gating variable.  The
`Arc<RwLock<Repository>>` payload of the two active variants is kept outside
the handle, as the single `RepoStore` threaded through an invocation. -/
inductive RepositoryHandle where
  | None
  | ReadOnly
  | ReadWrite
deriving DecidableEq

/-- The per-instance `Handle` (`handle.rs:17-29`), restricted to the fields
host imports read or write: the gating variable, the `db_token`, the pending
template name and parameters, and the `db_path` scratch buffer.  The cached
typed guest exports are abstracted away. -/
structure Handle where
  repo : RepositoryHandle
  token : Nat
  template : Option String
  parameters : List (String × String)
  dbPath : String
deriving DecidableEq

/-- `Handle::new` (`handle.rs:34-47`): gating variable `None`, token
`u64::MAX`, no template, no parameters, empty scratch path. -/
def Handle.new : Handle :=
  { repo := .None, token := 2 ^ 64 - 1, template := none,
    parameters := [], dbPath := "" }

/-- The check performed by `Handle::repo(will_write)` (`handle.rs:49-57`),
reduced to its trap outcome: `some msg` when the call traps, `none` when a
store handle is returned. -/
def Handle.repoCheck (h : Handle) (willWrite : Bool) : Option String :=
  match h.repo, willWrite with
  | .None, _ => some "Nested internal call"
  | .ReadOnly, true => some "RW/RO barrier"
  | .ReadOnly, false => none
  | .ReadWrite, _ => none

/-- `Handle::prepare` (`handle.rs:100-106`): set the token and the gating
variable; the other fields are left as they are. -/
def Handle.prepare (h : Handle) (readOnly : Bool) (tok : Nat) : Handle :=
  { h with token := tok,
           repo := if readOnly then .ReadOnly else .ReadWrite }

/-- The value extracted by `Handle::reset` (`handle.rs:108-111`): the template
name paired with the parameters, when a template was set. -/
def Handle.resetResult (h : Handle) : Option (String × List (String × String)) :=
  h.template.map (fun t => (t, h.parameters))

/-- The tenant's backing store, reduced to the narrow interface the host
imports consume: a map from file paths to byte contents, where
`write_table_entry` stages and `read_table_entry` reads. -/
structure RepoStore where
  files : List (String × List Nat)
deriving DecidableEq

/-- The `"<table>/<key>.json"` path built by `Handle::db_path`
(`handle.rs:87-98`). -/
def dbPathOf (table key : String) : String :=
  table ++ "/" ++ key ++ ".json"

/-- One action taken by guest code during an invocation, as observed by the
host: one of the four host imports, or a trap raised by the guest itself
(an `unreachable`, a stack overflow, ...).  Return values flowing back to the
guest are not tracked: a guest that branches on them realises, on each run,
one action list, and all claims quantify over all action lists. -/
inductive GuestOp where
  | writeTableEntry (table key : String) (json : List Nat)
  | readTableEntry (table key : String)
  | setTemplateName (name : String)
  | setTemplateParam (key value : String)
  | guestTrap (msg : String)

/-- Result of one host-boundary step: the wasmi store's handle and the repo
store afterwards, with `trap` aborting the invocation.  A host import that
traps leaves `Handle::new()` behind, because each import moves the handle out
of the caller on entry (`core::mem::replace(caller.data_mut(), Handle::new())`)
and only moves it back on its success path; a trap raised by guest code leaves
the handle as it was. -/
inductive StepResult where
  | ok (h : Handle) (s : RepoStore)
  | trap (msg : String) (h : Handle) (s : RepoStore)

/-- Host-boundary semantics of a single guest action.
`write_table_entry` (`handle.rs:150-173`) checks the gate with
`repo(true)` before anything else and stages the file on success (staging
errors of the external store are not modelled); `read_table_entry`
(`handle.rs:114-148`) checks with `repo(false)` and leaves the store
unchanged; `set_template_name` and `set_template_param`
(`handle.rs:175-215`) perform no gate check at all and record the template
name and parameter. -/
def stepOp (h : Handle) (s : RepoStore) : GuestOp → StepResult
  | .writeTableEntry t k json =>
      match h.repoCheck true with
      | some m => .trap m Handle.new s
      | none =>
          .ok { h with dbPath := dbPathOf t k }
             { s with files := insertA s.files (dbPathOf t k) json }
  | .readTableEntry t k =>
      match h.repoCheck false with
      | some m => .trap m Handle.new s
      | none => .ok { h with dbPath := dbPathOf t k } s
  | .setTemplateName n => .ok { h with template := some n } s
  | .setTemplateParam k v =>
      .ok { h with parameters := insertA h.parameters k v } s
  | .guestTrap m => .trap m h s

/-- Run a list of guest actions in order, stopping at the first trap. -/
def execOps : Handle → RepoStore → List GuestOp → StepResult
  | h, s, [] => .ok h s
  | h, s, op :: rest =>
      match stepOp h s op with
      | .ok h' s' => execOps h' s' rest
      | .trap m h' s' => .trap m h' s'

/-- Everything observable after `WasmThread::call_script_fn` returns: its
`Result`, the handle left in the wasmi store, and the repo store. -/
structure CallOutcome where
  result : Except String (Option (String × List (String × String)) × Option Nat)
  handle : Handle
  store : RepoStore

/-- `WasmThread::call_script_fn` (`moth-wasm/wasm.rs:132-186`): prepare the
handle, run the guest, and on normal return reset the handle (leaving
`Handle::new()` in the store) and interpret the returned i64 — `0` means no
JSON result.  On a trap the function returns early (`wasm.rs:171`), so no
reset happens and the handle is whatever the trap left behind. -/
def callScriptFn (h : Handle) (readOnly : Bool) (s : RepoStore) (tok : Nat)
    (ops : List GuestOp) (retVal : Nat) : CallOutcome :=
  let h0 := h.prepare readOnly tok
  match execOps h0 s ops with
  | .trap m h1 s1 => ⟨.error m, h1, s1⟩
  | .ok h1 s1 =>
      ⟨.ok (h1.resetResult, if retVal = 0 then none else some retVal),
       Handle.new, s1⟩

/-- `ScriptResult` from `lib/script.rs`. -/
inductive ScriptResultM where
  | Template (name : String) (params : List (String × String))
  | Json (ptr : Nat)

/-- The result interpretation at the end of `WasmApp::process_script`
(`moth-wasm/main.rs:134-160`): a trap is an error, and exactly one of
template/JSON must be present. -/
def processScriptResult :
    Except String (Option (String × List (String × String)) × Option Nat) →
    Except Unit ScriptResultM
  | .error _ => .error ()
  | .ok (none, some j) => .ok (.Json j)
  | .ok (some (t, ps), none) => .ok (.Template t ps)
  | .ok (none, none) => .error ()
  | .ok (some _, some _) => .error ()

/-- `RendererCommand` from `lib/renderer.rs`, without the site reference. -/
inductive RendererCommandM where
  | Template (name : String) (params : List (String × String))
  | Json (ptr : Nat)

/-- The body of the `script_runner` loop (`lib/script.rs:28-38`): an `Ok`
script result is forwarded to the render channel, an `Err` result is dropped
together with the request — nothing is sent, so no response is ever written
for that request. -/
def scripterStep : Except Unit ScriptResultM → Option RendererCommandM
  | .ok (.Template t ps) => some (.Template t ps)
  | .ok (.Json j) => some (.Json j)
  | .error _ => none

/-! ## Concrete instances used by the scenario theorems and witnesses -/

/-- The route tree `{ "assets": { "[param]": "denied.png" } }` of the spec's
concrete scenarios, as produced by `parse_routes`: the `"[param]"` key becomes
the wildcard child. -/
def assetsTree : Endpoint :=
  .Dir none none [("assets", .Dir none (some (.Static "denied.png")) [])]

/-- A store holding one staged file, used to witness store preservation. -/
def storeW : RepoStore := ⟨[("a/b.json", [1])]⟩

/-- A read-only invocation of a guest that sets a template name and then
traps in guest code, before any reset can happen. -/
def trapCall : CallOutcome :=
  callScriptFn Handle.new true ⟨[]⟩ 7
    [.setTemplateName "t", .guestTrap "unreachable"] 0

/-- The 64-hex-digit key string of the deployment scenario (64 times `f`). -/
def keyHexF : String :=
  "ffffffffffffffffffffffffffffffffffffffffffffffffffffffffffffffff"

/-- The 32 bytes `keyHexF` decodes to. -/
def keyFF : List Nat := List.replicate 32 255

/-- Deployer state in which hostname `h` is already owned with key
`replicate 32 0`. -/
def stOwned : DeployerState :=
  { pending := [], admins := [("h", List.replicate 32 0)],
    sitesReg := [], maxSize := 10 }

/-- Deployer state in which hostname `h` is not yet owned. -/
def stFreshD : DeployerState :=
  { pending := [], admins := [], sitesReg := [], maxSize := 10 }

/-- A `/request` body for site `h` with key `keyHexF` and `size_bytes` 5. -/
def bodyH : ReqBody :=
  { site := some "h", key := some keyHexF, size_bytes := some "5" }

/-- Deployer state with one pending upload and one admin binding, used to
witness the frame conditions of a failed upload. -/
def stPend : DeployerState :=
  { pending := [("t", ⟨[3, 4], 5, "h"⟩), ("u", ⟨[], 9, "g"⟩)],
    admins := [("h", List.replicate 32 0)], sitesReg := ["d"], maxSize := 10 }

/-- A site constructor that always fails, usable wherever `WasmApp::new` is
irrelevant. -/
def buildNone : List Nat → String → Option String := fun _ _ => none

/-! ## Helper lemmas -/

theorem lookupA_insertA_self {α : Type} (l : List (String × α)) (k : String) (v : α) :
    lookupA (insertA l k v) k = some v := by
  induction l with
  | nil => simp [insertA, lookupA]
  | cons p rest ih =>
      obtain ⟨k0, v0⟩ := p
      by_cases h : k0 = k
      · simp [insertA, lookupA, h]
      · simp [insertA, lookupA, h, ih]

theorem lookupA_insertA_ne {α : Type} (l : List (String × α)) (k k' : String)
    (v : α) (hne : k' ≠ k) : lookupA (insertA l k v) k' = lookupA l k' := by
  induction l with
  | nil =>
      have hkk : ¬ k = k' := fun hh => hne hh.symm
      simp [insertA, lookupA, hkk]
  | cons p rest ih =>
      obtain ⟨k0, v0⟩ := p
      by_cases h : k0 = k
      · subst h
        have hkk : ¬ k0 = k' := fun hh => hne hh.symm
        simp [insertA, lookupA, hkk]
      · simp [insertA, lookupA, h, ih]

theorem execOps_append (pre post : List GuestOp) : ∀ (h : Handle) (s : RepoStore),
    execOps h s (pre ++ post) =
      match execOps h s pre with
      | .ok h' s' => execOps h' s' post
      | .trap m h' s' => .trap m h' s' := by
  induction pre with
  | nil => intro h s; simp [execOps]
  | cons op rest ih =>
      intro h s
      simp only [List.cons_append, execOps]
      cases stepOp h s op with
      | ok h' s' => simpa using ih h' s'
      | trap m h' s' => simp

theorem execOps_ro (ops : List GuestOp) : ∀ (h : Handle) (s : RepoStore),
    h.repo = .ReadOnly → ∀ (h' : Handle) (s' : RepoStore),
    execOps h s ops = .ok h' s' → h'.repo = .ReadOnly ∧ s' = s := by
  induction ops with
  | nil =>
      intro h s hro h' s' hex
      simp only [execOps] at hex
      cases hex
      exact ⟨hro, rfl⟩
  | cons op rest ih =>
      intro h s hro h' s' hex
      cases op with
      | writeTableEntry t k json =>
          simp [execOps, stepOp, Handle.repoCheck, hro] at hex
      | readTableEntry t k =>
          simp only [execOps, stepOp, Handle.repoCheck, hro] at hex
          refine ih _ _ ?_ h' s' hex
          simp [hro]
      | setTemplateName n =>
          simp only [execOps, stepOp] at hex
          refine ih _ _ ?_ h' s' hex
          simp [hro]
      | setTemplateParam k v =>
          simp only [execOps, stepOp] at hex
          refine ih _ _ ?_ h' s' hex
          simp [hro]
      | guestTrap m =>
          simp [execOps, stepOp] at hex

theorem reserveToken_ok (site : String) (size : Nat) (tokens : List String) :
    ∀ (st : DeployerState), (∃ t ∈ tokens, lookupA st.pending t = none) →
    ∃ tok st', reserveToken st site size tokens = .ok tok st' ∧
      st'.admins = st.admins := by
  induction tokens with
  | nil => intro st hfresh; simp at hfresh
  | cons t rest ih =>
      intro st hfresh
      by_cases hh : (lookupA st.pending t).isSome
      · have hrest : ∃ u ∈ rest, lookupA st.pending u = none := by
          obtain ⟨u, hu, hnone⟩ := hfresh
          rcases List.mem_cons.mp hu with hu | hu
          · subst hu; rw [hnone] at hh; simp at hh
          · exact ⟨u, hu, hnone⟩
        obtain ⟨tok, st', hok, hadm⟩ := ih st hrest
        exact ⟨tok, st', by simpa [reserveToken, hh] using hok, hadm⟩
      · refine ⟨t, { st with pending := insertA st.pending t ⟨[], size, site⟩ },
          ?_, rfl⟩
        simp [reserveToken, hh]

theorem chunksLen_zero_flatten (chunks : List (List Nat)) :
    chunksLen chunks = 0 → chunks.flatten = [] := by
  induction chunks with
  | nil => intro; rfl
  | cons c rest ih =>
      intro h
      simp only [chunksLen, List.foldr_cons] at h
      have hc : c.length = 0 := by omega
      have hr : chunksLen rest = 0 := by
        simp only [chunksLen]; omega
      simp [List.length_eq_zero.mp hc, ih hr]

theorem uploadLoop_zero_reads (n : Nat) : ∀ (k : Nat) (acc : List Nat),
    uploadLoop (n + 1) (List.replicate k (some [])) acc = none := by
  intro k
  induction k with
  | zero => intro acc; rfl
  | succ k ih =>
      intro acc
      rw [List.replicate_succ, uploadLoop]
      simpa using ih acc

/-! ## Claim theorems -/

/-- C2 counterexample: for tree `{ "assets": { "[param]": "denied.png" } }`
and path `/assets/xyz`, route resolution does NOT produce
`path_override = "denied.png/xyz"` — descending through the wildcard into the
`Static` consumes the segment as a path variable and leaves `path_override`
untouched. -/
theorem c2_override_counterexample :
    (resolveRoute assetsTree (.Static "404.html") (splitPath "/assets/xyz")).2.2
      ≠ some "denied.png/xyz" :=
  fun hc => Option.noConfusion hc

/-- C2 as amended: for tree `{ "assets": { "[param]": "denied.png" } }` and
path `/assets/xyz`, resolution yields the `Static "denied.png"` endpoint with
`path_vars = ["xyz"]` and `path_override = none` (so the served static path is
`"denied.png"` itself), for any 404 endpoint. -/
theorem c2_wildcard_static_resolution (on404 : Endpoint) :
    resolveRoute assetsTree on404 (splitPath "/assets/xyz")
      = (.Static "denied.png", ["xyz"], none) := rfl

/-- C3 counterexample: for the same tree and path `/assets/a/b`, route
resolution does NOT fall back to the site's 404 endpoint — the leftover
segment `b` is absorbed by the `Static` endpoint reached through the
wildcard. -/
theorem c3_fallback_counterexample :
    (resolveRoute assetsTree (.Static "404.html") (splitPath "/assets/a/b")).1
      ≠ .Static "404.html" := by
  intro hc
  injection hc with h
  exact absurd h (by decide)

/-- C3 as amended: for tree `{ "assets": { "[param]": "denied.png" } }` and
path `/assets/a/b`, resolution yields `Static "denied.png"` with
`path_vars = ["a"]` and `path_override = "denied.png/b"`; a 404 can then arise
only at dispatch time, if the asset `"denied.png/b"` is missing. -/
theorem c3_static_absorbs_remaining_segment (on404 : Endpoint) :
    resolveRoute assetsTree on404 (splitPath "/assets/a/b")
      = (.Static "denied.png", ["a"], some "denied.png/b") := rfl

/-- C4 counterexample: in a `Dir` whose `default` child exists but is not
`Static` (here a `ScriptExec`) and whose wildcard child exists, the walker
takes the wildcard — capturing the segment as a path variable and resolving to
the wildcard child — even though a `default` child is present. -/
theorem c4_default_priority_counterexample :
    resolveRoute (.Dir (some (.ScriptExec true "f")) (some (.Static "w")) [])
        (.Static "notfound") ["x"]
      = (.Static "w", ["x"], none) ∧
    (Endpoint.ScriptExec true "f") ≠ (.Static "w") :=
  ⟨rfl, fun hc => Endpoint.noConfusion hc⟩

/-- C4 as amended: within a `Dir`, an `items` match on the segment is taken
first; otherwise a `default` child is taken in preference to the wildcard only
when that `default` is a `Static` endpoint (without consuming the segment,
which lands in `path_override`); the wildcard child is taken when there is no
`items` match and no `Static` `default`, capturing the segment in
`path_vars`. -/
theorem c4_dir_priority (on404 : Endpoint) (d w : Option Endpoint)
    (items : List (String × Endpoint)) (s : String) (rest : List String)
    (vars : List String) (ov : Option String) :
    (∀ e, lookupA items s = some e →
      routeWalk on404 (.Dir d w items) (s :: rest) vars ov
        = routeWalk on404 e rest vars ov) ∧
    (lookupA items s = none → ∀ p, d = some (.Static p) →
      routeWalk on404 (.Dir d w items) (s :: rest) vars ov
        = routeWalk on404 (.Static p) rest vars (some ((ov.getD p) ++ "/" ++ s))) ∧
    (lookupA items s = none → (∀ p, d ≠ some (.Static p)) →
      ∀ nx, w = some nx →
      routeWalk on404 (.Dir d w items) (s :: rest) vars ov
        = routeWalk on404 nx rest (vars ++ [s]) ov) := by
  refine ⟨?_, ?_, ?_⟩
  · intro e he
    simp [routeWalk, he]
  · intro hnone p hd
    subst hd
    simp [routeWalk, hnone]
  · intro hnone hnstatic nx hw
    subst hw
    match d with
    | none => simp [routeWalk, hnone]
    | some (.ScriptExec ro nm) => simp [routeWalk, hnone]
    | some (.Static p) => exact absurd rfl (hnstatic p)
    | some (.Dir dd ww ii) => simp [routeWalk, hnone]
    | some .Upload => simp [routeWalk, hnone]
    | some (.Error c) => simp [routeWalk, hnone]

/-- Witness for `c4_dir_priority`: each of the three cases applied at a
concrete input. -/
theorem c4_dir_priority_witness :
    (routeWalk .Upload (.Dir none none [("a", .Upload)]) ["a"] [] none
       = routeWalk .Upload .Upload [] [] none) ∧
    (routeWalk .Upload (.Dir (some (.Static "p")) none []) ["x"] [] none
       = routeWalk .Upload (.Static "p") [] [] (some "p/x")) ∧
    (routeWalk .Upload
        (.Dir (some (.ScriptExec true "f")) (some (.Static "w")) []) ["x"] [] none
       = routeWalk .Upload (.Static "w") [] (["x"]) none) :=
  ⟨(c4_dir_priority .Upload none none [("a", .Upload)] "a" [] [] none).1
      .Upload rfl,
   (c4_dir_priority .Upload (some (.Static "p")) none [] "x" [] [] none).2.1
      rfl "p" rfl,
   (c4_dir_priority .Upload (some (.ScriptExec true "f")) (some (.Static "w"))
      [] "x" [] [] none).2.2
      rfl (fun p hp => by injection hp with hh; exact Endpoint.noConfusion hh)
      (.Static "w") rfl⟩

/-- C9: the config loader hands `Sites::new` a scripter-thread count read from
the `request_threads` property, not from `script_threads`: with a config of
`request_threads = 1`, `script_threads = 2`, `render_threads = 3`, `serve`
spawns 1 scripter thread while the config's `script_threads` property says
2. -/
theorem c9_script_threads_misread :
    (spawnedScripterTids (loadThreadCounts ⟨1, 2, 3⟩)).length = 1 ∧
    (ConfigFile.mk 1 2 3).script_threads = 2 ∧ (1 : Nat) ≠ 2 := by decide

/-- C10: with an upload session expecting 5 bytes and a request body that
delivers 3 bytes and then hits end-of-input (every further read returns zero
bytes), the `while body_len > 0` loop of the `Upload` arm never finishes: no
number of additional reads produces an outcome, so the session is never
closed and no response is written. -/
theorem c10_upload_loop_never_ends (k : Nat) :
    uploadLoop 5 (some [1, 2, 3] :: List.replicate k (some [])) [] = none := by
  rw [uploadLoop]
  simpa using uploadLoop_zero_reads 1 k [1, 2, 3]

/-- C7: after a guest trap, `call_script_fn` returns before `Handle::reset`:
for a read-only invocation whose guest sets template name `"t"` and then traps
in guest code, the instance handle afterwards still has its gating variable at
`ReadOnly` (not `None`) and still carries the unconsumed template name, while
the call's result is an error. -/
theorem c7_trap_skips_reset :
    trapCall.handle.repo = .ReadOnly ∧
    trapCall.handle.repo ≠ .None ∧
    trapCall.handle.template = some "t" ∧
    (∃ m, trapCall.result = .error m) :=
  ⟨rfl, by decide, rfl, ⟨"unreachable", rfl⟩⟩

/-- C5 counterexample: a session opened with `size_bytes = 1` whose body
carries 2 bytes is nonetheless closed with `end_of_upload(true)` and a 200
response when the reads deliver the bytes one at a time — the second byte is
simply never read — contradicting "the (N+1)-th byte causes success=false and
a 400". -/
theorem c5_exactness_counterexample :
    uploadLoop 1 [some [7], some [8]] [] = some (.closed200, [7]) ∧
    UploadOutcome.closed200 ≠ .closed400 :=
  ⟨rfl, by decide⟩

/-- C5 as amended: (a) when the reads deliver chunks whose lengths sum to
exactly the expected size N, the `upload_progress` calls concatenate to
exactly those N bytes and the session closes with `end_of_upload(true)` and a
200; (b) the session closes with `end_of_upload(false)` and a 400 exactly
when one read delivers more bytes than remain expected, and in that case the
whole crossing chunk — including bytes beyond the N-th — has been passed to
`upload_progress`.  Bytes of the body beyond N that only arrive in later
reads are never read (see the counterexample). -/
theorem c5_upload_loop_spec :
    (∀ (chunks : List (List Nat)) (acc : List Nat),
       uploadLoop (chunksLen chunks) (chunks.map some) acc
         = some (.closed200, acc ++ chunks.flatten)) ∧
    (∀ (n : Nat) (c : List Nat) (rest : List (Option (List Nat)))
       (acc : List Nat), n + 1 < c.length →
       uploadLoop (n + 1) (some c :: rest) acc
         = some (.closed400, acc ++ c)) := by
  constructor
  · intro chunks
    induction chunks with
    | nil => intro acc; simp [chunksLen, uploadLoop]
    | cons c rest ih =>
        intro acc
        rcases hn : chunksLen (c :: rest) with _ | n
        · have hflat := chunksLen_zero_flatten _ hn
          rw [hflat]
          simp [uploadLoop]
        · have hlen : c.length + chunksLen rest = n + 1 := by
            simpa [chunksLen] using hn
          rw [List.map_cons, uploadLoop]
          rw [if_pos (by omega)]
          have hrest : n + 1 - c.length = chunksLen rest := by omega
          rw [hrest]
          simpa [List.append_assoc] using ih (acc ++ c)
  · intro n c rest acc hlt
    rw [uploadLoop, if_neg (by omega)]

/-- Witness for `c5_upload_loop_spec`: the exact-size case at a two-chunk
two-byte body, and the overflow case at a session expecting 1 byte whose
single read delivers 2 bytes. -/
theorem c5_upload_loop_witness :
    uploadLoop 2 [some [1], some [2]] [] = some (.closed200, [1, 2]) ∧
    uploadLoop 1 [some [7, 8]] [] = some (.closed400, [7, 8]) :=
  ⟨c5_upload_loop_spec.1 [[1], [2]] [],
   c5_upload_loop_spec.2 0 [7, 8] [] [] (by decide)⟩

/-- C1: for any read-only invocation whose guest reaches a `write_table_entry`
call (the actions before it run without trapping), the call traps with the
`RW/RO barrier` message, the invocation's result is that error, the tenant
store is exactly as before the invocation (nothing staged), and the scripter
stage drops the job — no render command is emitted, so no HTTP response is
ever written for the request. -/
theorem c1_ro_barrier_drops_request
    (h : Handle) (s : RepoStore) (tok retVal : Nat)
    (pre post : List GuestOp) (t k : String) (json : List Nat)
    (h1 : Handle) (s1 : RepoStore)
    (hpre : execOps (h.prepare true tok) s pre = .ok h1 s1) :
    (callScriptFn h true s tok
        (pre ++ GuestOp.writeTableEntry t k json :: post) retVal).result
      = .error "RW/RO barrier" ∧
    (callScriptFn h true s tok
        (pre ++ GuestOp.writeTableEntry t k json :: post) retVal).store = s ∧
    scripterStep (processScriptResult
      (callScriptFn h true s tok
        (pre ++ GuestOp.writeTableEntry t k json :: post) retVal).result)
      = none := by
  have hprep : (h.prepare true tok).repo = .ReadOnly := by simp [Handle.prepare]
  obtain ⟨hro1, hs1⟩ := execOps_ro pre _ _ hprep h1 s1 hpre
  have hexec : execOps (h.prepare true tok) s
      (pre ++ GuestOp.writeTableEntry t k json :: post)
      = .trap "RW/RO barrier" Handle.new s1 := by
    rw [execOps_append, hpre]
    simp [execOps, stepOp, Handle.repoCheck, hro1]
  subst hs1
  simp [callScriptFn, hexec, processScriptResult, scripterStep]

/-- Witness for `c1_ro_barrier_drops_request`: a read-only invocation whose
guest immediately writes, over a store holding one file. -/
theorem c1_ro_barrier_witness :
    (callScriptFn Handle.new true storeW 0
        ([] ++ GuestOp.writeTableEntry "t" "k" [2] :: []) 0).result
      = .error "RW/RO barrier" ∧
    (callScriptFn Handle.new true storeW 0
        ([] ++ GuestOp.writeTableEntry "t" "k" [2] :: []) 0).store = storeW ∧
    scripterStep (processScriptResult
      (callScriptFn Handle.new true storeW 0
        ([] ++ GuestOp.writeTableEntry "t" "k" [2] :: []) 0).result) = none :=
  c1_ro_barrier_drops_request Handle.new storeW 0 0 [] [] "t" "k" [2]
    (Handle.new.prepare true 0) storeW rfl

/-- C6: if the deployer's `admins` map binds hostname `H` to key `K`, a
`/request` whose submitted key decodes to `K' ≠ K` is rejected with the state
— in particular `admins` — exactly as before; and when `H` is unbound, a
successful `/request` for `H` binds `admins[H]` to the submitted key. -/
theorem c6_hostname_ownership (st : DeployerState) (body : ReqBody)
    (tokens : List String) (H : String) (K Kp : List Nat) (n : Nat) :
    (lookupA st.admins H = some K → body.site = some H →
      body.key.bind decodeHex32 = some Kp → Kp ≠ K →
      deployerProcessScript st body tokens = .err st) ∧
    (lookupA st.admins H = none → body.site = some H →
      body.key.bind decodeHex32 = some Kp →
      body.size_bytes.bind parseUsize = some n → n ≤ st.maxSize →
      (∃ tk ∈ tokens, lookupA st.pending tk = none) →
      ∃ tok st', deployerProcessScript st body tokens = .ok tok st' ∧
        lookupA st'.admins H = some Kp) := by
  constructor
  · intro ha hs hk hne
    cases hsz : body.size_bytes.bind parseUsize with
    | none => simp [deployerProcessScript, hs, hk, hsz]
    | some sz =>
        by_cases hmax : st.maxSize < sz
        · simp [deployerProcessScript, hs, hk, hsz, hmax]
        · have hKne : K ≠ Kp := fun hh => hne hh.symm
          simp [deployerProcessScript, hs, hk, hsz, hmax, ha, hKne]
  · intro ha hs hk hsz hle hfresh
    have hmax : ¬ st.maxSize < n := by omega
    obtain ⟨tok, st', hok, hadm⟩ := reserveToken_ok H n tokens
      { st with admins := insertA st.admins H Kp } (by simpa using hfresh)
    refine ⟨tok, st', ?_, ?_⟩
    · simp [deployerProcessScript, hs, hk, hsz, hmax, ha, hok]
    · rw [hadm]
      simpa using lookupA_insertA_self st.admins H Kp

/-- Witness for `c6_hostname_ownership`: a mismatching key against an owned
hostname is rejected without state change, and the same request against a
fresh deployer binds the hostname to the submitted key. -/
theorem c6_hostname_ownership_witness :
    deployerProcessScript stOwned bodyH ["tk"] = .err stOwned ∧
    (∃ tok st', deployerProcessScript stFreshD bodyH ["tk"] = .ok tok st' ∧
       lookupA st'.admins "h" = some keyFF) :=
  ⟨(c6_hostname_ownership stOwned bodyH ["tk"] "h" (List.replicate 32 0)
      keyFF 5).1 (by decide) rfl (by decide) (by decide),
   (c6_hostname_ownership stFreshD bodyH ["tk"] "h" [] keyFF 5).2
      rfl rfl (by decide) (by decide) (by decide) ⟨"tk", by simp, rfl⟩⟩

/-- C8: for a pending upload token, `end_of_upload(token, false)` empties the
accumulated buffer but keeps the pending entry: `check_upload_token` still
answers `Some` (with the reserved capacity), no site is inserted into the
registry, the `admins` map is untouched, and every other pending entry is
unchanged. -/
theorem c8_failed_upload_keeps_reservation
    (build : List Nat → String → Option String) (st : DeployerState)
    (tok : String) (e : UploadEntry) (he : lookupA st.pending tok = some e) :
    ∃ st', endOfUpload build st tok false = some st' ∧
      lookupA st'.pending tok = some ⟨[], e.cap, e.host⟩ ∧
      checkUploadToken st' tok = some e.cap ∧
      st'.sitesReg = st.sitesReg ∧ st'.admins = st.admins ∧
      (∀ t', t' ≠ tok → lookupA st'.pending t' = lookupA st.pending t') := by
  refine ⟨{ st with pending := insertA st.pending tok ⟨[], e.cap, e.host⟩ },
    ?_, ?_, ?_, rfl, rfl, ?_⟩
  · simp [endOfUpload, he]
  · simpa using lookupA_insertA_self st.pending tok ⟨[], e.cap, e.host⟩
  · simp [checkUploadToken, lookupA_insertA_self]
  · intro t' hne
    simpa using lookupA_insertA_ne st.pending tok t' _ hne

/-- Witness for `c8_failed_upload_keeps_reservation`: a deployer with two
pending uploads and one admin binding, failing the upload for token `t`. -/
theorem c8_failed_upload_witness :
    ∃ st', endOfUpload buildNone stPend "t" false = some st' ∧
      lookupA st'.pending "t" = some ⟨[], 5, "h"⟩ ∧
      checkUploadToken st' "t" = some 5 ∧
      st'.sitesReg = stPend.sitesReg ∧ st'.admins = stPend.admins ∧
      (∀ t', t' ≠ "t" → lookupA st'.pending t' = lookupA stPend.pending t') :=
  c8_failed_upload_keeps_reservation buildNone stPend "t" ⟨[3, 4], 5, "h"⟩ rfl

end Moth
